import Mathlib

/-!
Shallow embedding of the sqlitemigration package (sqlitemigration.go): a
connection pool that runs a series of SQL migration scripts exactly once
before handing out connections.

The SQL engine (crawshaw.io/sqlite and sqlitex) is an external collaborator:
its statement semantics are a parameter of the model.  Key facts of that
collaborator encoded here:

* sqlitex.ExecScript wraps a whole script in a savepoint, so a script either
  fully applies or leaves the data unchanged.  migrateDB appends the
  user_version bump as the final statement of the same script, so the script
  body and the version write are one atomic unit.
* migrateDB itself runs under an outer savepoint via
  defer sqlitex.Save(conn)(and err): on any error return the rollback
  restores the database to the state at entry, including the application_id
  write and any scripts of this attempt.
* Reads of pragmas (application_id, user_version, sqlite_master count) are
  modelled as total reads of the database state.

Machine integers: application_id is an int32, modelled as Int (overflow never
arises: the code only copies values).  user_version is read with ColumnInt
and is non-negative for any database this code itself produced; it is
modelled as Nat.
-/

set_option autoImplicit false

namespace SQLiteMigration

/-- One SQL statement, abstracted as a fallible transformation of the
database contents.  The statement semantics belong to the external SQL
engine and are a parameter of the model. -/
def Stmt (D : Type) : Type := D → Option D

/-- A migration script: a list of statements run in order inside one
savepoint by sqlitex.ExecScript. -/
def Script (D : Type) : Type := List (Stmt D)

/-- Schema from sqlitemigration.go: application id plus ordered migration
scripts. -/
structure Schema (D : Type) where
  AppID : Int
  Migrations : List (Script D)

/-- Persisted database state: the application_id pragma, the user_version
pragma, and the remaining file contents abstracted as D. -/
structure DB (D : Type) where
  appID : Int
  userVersion : Nat
  data : D
  deriving DecidableEq, Repr

/-- Errors produced by migrateDB. -/
inductive MigErr where
  | appIDMismatch (dbAppID expected : Int)
  | applyMigration (idx : Nat)
  deriving DecidableEq, Repr

/-- Terminal errors of the background open/migrate task. -/
inductive PoolErr where
  | migrate (e : MigErr)
  | closedBeforeMigration
  deriving DecidableEq, Repr

/-- Errors passed to the OnError report hook. -/
inductive ReportedErr where
  | openFailed (code : Nat)
  | closeAfterFailedMigration (code : Nat)
  | poolFailed (e : PoolErr)
  deriving DecidableEq, Repr

/-- Ghost trace of observable actions: pragma writes, hook call sites and
script executions, in program order. -/
inductive Event where
  | wroteAppID (appID : Int)
  | startMigrate
  | ranScript (idx : Nat)
  | ready
  | reportedError (e : ReportedErr)
  deriving DecidableEq, Repr

/-- SignalFunc from sqlitemigration.go; a nil hook is Option.none.  A hook is
modelled as a transformation of caller-side state. -/
def SignalFunc (σ : Type) : Type := Option (σ → σ)

/-- SignalFunc.call: calling a nil hook is a no-op. -/
def SignalFunc.call {σ : Type} : SignalFunc σ → σ → σ
  | none, s => s
  | some f, s => f s

/-- ReportFunc from sqlitemigration.go; a nil hook is Option.none. -/
def ReportFunc (σ : Type) : Type := Option (ReportedErr → σ → σ)

/-- ReportFunc.call: calling a nil hook is a no-op. -/
def ReportFunc.call {σ : Type} : ReportFunc σ → ReportedErr → σ → σ
  | none, _, s => s
  | some f, e, s => f e s

/-- Run the statements of one script in order; the enclosing savepoint makes
the script all-or-nothing, so a failure yields no partial state. -/
def runStmts {D : Type} : List (Stmt D) → D → Option D
  | [], d => some d
  | st :: rest, d =>
    match st d with
    | none => none
    | some d2 => runStmts rest d2

/-- Reference sequential semantics: run whole scripts one after another,
failing on the first script that fails. -/
def runScriptsSeq {D : Type} : List (Script D) → D → Option D
  | [], d => some d
  | sc :: rest, d =>
    match runStmts sc d with
    | none => none
    | some d2 => runScriptsSeq rest d2

/-- The migration loop of migrateDB (lines 252-258): while
schemaVersion < len(Migrations), run ExecScript on migrations[schemaVersion]
with the user_version bump appended as its final statement.  The loop is
translated structurally over the scripts still pending (the caller passes
Migrations.drop user_version together with the running index).  The bump is
the last statement of the atomic script and cannot fail, so the combined
unit succeeds exactly when the script body does, and then the data change
and the version write land together.  Returns the final
(data, user_version) on success, the error naming the failing index
otherwise, plus the ghost trace of executed scripts. -/
def migrateLoop {D : Type} : List (Script D) → Nat → D →
    Except MigErr (D × Nat) × List Event
  | [], v, d => (Except.ok (d, v), [])
  | sc :: rest, v, d =>
    match runStmts sc d with
    | none => (Except.error (MigErr.applyMigration v), [Event.ranScript v])
    | some d2 =>
      let r := migrateLoop rest (v + 1) d2
      (r.1, Event.ranScript v :: r.2)

/-- Result of one migrateDB run: the returned error if any, the database
state after the run (the outer savepoint restores the entry state on error),
the caller-side hook state, and the ghost event trace. -/
structure MigrateResult (D σ : Type) where
  result : Except MigErr Unit
  db : DB D
  hookState : σ
  events : List Event
  deriving Repr

/-- migrateDB (lines 214-260): check application_id (accepting a fresh
database: id 0 and no schema objects), write application_id, fire
OnStartMigrate, then run the migration loop.  The whole body sits under an
outer savepoint (defer sqlitex.Save), so on any error return the database
reverts to its entry state; hook calls and the ghost trace are not rolled
back. -/
def migrateDB {D σ : Type} (hasSchema : D → Bool) (schema : Schema D)
    (onStart : SignalFunc σ) (db : DB D) (s : σ) : MigrateResult D σ :=
  if db.appID != schema.AppID && !(db.appID == 0 && !hasSchema db.data) then
    { result := Except.error (MigErr.appIDMismatch db.appID schema.AppID),
      db := db, hookState := s, events := [] }
  else
    match migrateLoop (schema.Migrations.drop db.userVersion) db.userVersion
        db.data with
    | (Except.error e, evs) =>
      { result := Except.error e, db := db,
        hookState := SignalFunc.call onStart s,
        events := Event.wroteAppID schema.AppID :: Event.startMigrate :: evs }
    | (Except.ok dv, evs) =>
      { result := Except.ok (),
        db := { appID := schema.AppID, userVersion := dv.2, data := dv.1 },
        hookState := SignalFunc.call onStart s,
        events := Event.wroteAppID schema.AppID :: Event.startMigrate :: evs }

/-- Indices of the migration scripts a trace executed, in order. -/
def ranOf (evs : List Event) : List Nat :=
  evs.filterMap fun e =>
    match e with
    | Event.ranScript i => some i
    | _ => none

/-- Environment outcome of one iteration of the openPool loop: either
sqlitex.Open fails with an error, or it succeeds and yields a pool whose
database state is db.  canceled says whether pool.Get then returns nil
because the outer context was cancelled; closeCode is the error pool.Close
would report if the pool is closed after a failed migration (none for a
clean close). -/
inductive OpenStep (D : Type) where
  | openFail (code : Nat)
  | openOK (db : DB D) (canceled : Bool) (closeCode : Option Nat)

/-- What the select over the retry channel and ctx.Done yields between two
open attempts. -/
inductive WaitStep where
  | retrySignal
  | canceledWait
  deriving DecidableEq, Repr

/-- The three optional hooks of Options. -/
structure Hooks (σ : Type) where
  OnStartMigrate : SignalFunc σ
  OnReady : SignalFunc σ
  OnError : ReportFunc σ

/-- Outcome of the background task: a migrated pool, a terminal error, or
still waiting for a retry signal when the finite environment trace ran out
(the real loop would keep blocking on the select). -/
inductive OpenOutcome (D : Type) where
  | ok (db : DB D)
  | err (e : PoolErr)
  | stillRetrying
  deriving DecidableEq, Repr

/-- Result of a run of the background task over a finite environment trace. -/
structure OpenResult (D σ : Type) where
  outcome : OpenOutcome D
  hookState : σ
  events : List Event

/-- The loop body of openPool (lines 180-212), driven by a finite trace of
environment steps: the first open attempt, then for every later attempt the
wait outcome (retry signal or cancellation) followed by that attempt's open
outcome.  On open failure the error is reported through OnError and the loop
waits; on cancellation it returns the closed-before-migration error; on open
success it runs migrateDB, closing the pool (and reporting a failed close)
on migration error, or firing OnReady and returning the pool on success. -/
def openPoolGo {D σ : Type} (hasSchema : D → Bool) (schema : Schema D)
    (hooks : Hooks σ) :
    OpenStep D → List (WaitStep × OpenStep D) → σ → OpenResult D σ
  | OpenStep.openFail code, rest, s =>
    let s1 := ReportFunc.call hooks.OnError (ReportedErr.openFailed code) s
    let ev := Event.reportedError (ReportedErr.openFailed code)
    match rest with
    | [] => { outcome := OpenOutcome.stillRetrying, hookState := s1, events := [ev] }
    | (w, o) :: rest2 =>
      match w with
      | WaitStep.canceledWait =>
        { outcome := OpenOutcome.err PoolErr.closedBeforeMigration,
          hookState := s1, events := [ev] }
      | WaitStep.retrySignal =>
        let r := openPoolGo hasSchema schema hooks o rest2 s1
        { outcome := r.outcome, hookState := r.hookState, events := ev :: r.events }
  | OpenStep.openOK db canceled closeCode, _rest, s =>
    if canceled then
      { outcome := OpenOutcome.err PoolErr.closedBeforeMigration,
        hookState := s, events := [] }
    else
      let m := migrateDB hasSchema schema hooks.OnStartMigrate db s
      match m.result with
      | Except.error e =>
        match closeCode with
        | some c =>
          { outcome := OpenOutcome.err (PoolErr.migrate e),
            hookState := ReportFunc.call hooks.OnError
              (ReportedErr.closeAfterFailedMigration c) m.hookState,
            events := m.events ++
              [Event.reportedError (ReportedErr.closeAfterFailedMigration c)] }
        | none =>
          { outcome := OpenOutcome.err (PoolErr.migrate e),
            hookState := m.hookState, events := m.events }
      | Except.ok _ =>
        { outcome := OpenOutcome.ok m.db,
          hookState := SignalFunc.call hooks.OnReady m.hookState,
          events := m.events ++ [Event.ready] }

/-- openPool (lines 180-212) over a finite environment trace. -/
def openPool {D σ : Type} (hasSchema : D → Bool) (schema : Schema D)
    (hooks : Hooks σ) (first : OpenStep D)
    (rest : List (WaitStep × OpenStep D)) (s : σ) : OpenResult D σ :=
  openPoolGo hasSchema schema hooks first rest s

/-- The background goroutine launched by NewPool (lines 95-102): run
openPool, then report a terminal error through OnError. -/
def newPoolTask {D σ : Type} (hasSchema : D → Bool) (schema : Schema D)
    (hooks : Hooks σ) (first : OpenStep D)
    (rest : List (WaitStep × OpenStep D)) (s : σ) : OpenResult D σ :=
  let r := openPool hasSchema schema hooks first rest s
  match r.outcome with
  | OpenOutcome.err e =>
    { outcome := r.outcome,
      hookState := ReportFunc.call hooks.OnError (ReportedErr.poolFailed e) r.hookState,
      events := r.events ++ [Event.reportedError (ReportedErr.poolFailed e)] }
  | _ => r

/-- In-process state of a Pool: whether the ready channel is closed
(resolved), whether p.pool is non-nil, the stored terminal error p.err, and
the closed flag. -/
structure PoolState where
  resolved : Bool
  pool : Bool
  err : Option PoolErr
  closed : Bool
  deriving DecidableEq, Repr

/-- Side effects of Pool.Close, in order. -/
inductive CloseAction where
  | cancelBackground
  | waitReady
  | closeAdapter
  deriving DecidableEq, Repr

/-- Pool.Close (lines 108-123).  Close blocks on the ready channel, so the
pool and err fields it then reads are the resolved ones; adapterCloseErr is
the error the adapter pool's Close would return.  Returns the "already
closed" error (modelled as Except.error) on a second call, otherwise the
adapter close result, the updated state, and the trace of side effects. -/
def PoolState.Close (p : PoolState) (adapterCloseErr : Option Nat) :
    Except Unit (Option Nat) × PoolState × List CloseAction :=
  if p.closed then
    (Except.error (), p, [])
  else
    let p1 : PoolState := { p with closed := true }
    if p.pool then
      (Except.ok adapterCloseErr, p1,
        [CloseAction.cancelBackground, CloseAction.waitReady, CloseAction.closeAdapter])
    else
      (Except.ok none, p1, [CloseAction.cancelBackground, CloseAction.waitReady])

/-- Health-check outcomes of Pool.CheckHealth. -/
inductive HealthErr where
  | closedPool
  | notReady
  | migrationFailed (e : PoolErr)
  deriving DecidableEq, Repr

/-- Pool.CheckHealth (lines 161-178): closed check first, then a
non-blocking select on the ready channel, then the stored error. -/
def PoolState.CheckHealth (p : PoolState) : Option HealthErr :=
  if p.closed then some HealthErr.closedPool
  else if p.resolved then
    match p.err with
    | some e => some (HealthErr.migrationFailed e)
    | none => none
  else some HealthErr.notReady

/-- Outcomes of Pool.Get. -/
inductive GetResult where
  | conn
  | ctxError
  | storedError (e : PoolErr)
  | poolClosed
  | blocked
  deriving DecidableEq, Repr

/-- Pool.Get (lines 126-143).  ctxCanceled: the caller's context is done;
selectPicksReady resolves the select when both the ready channel and
ctx.Done are ready; adapterGives: whether the adapter pool's Get returns a
connection.  blocked is the model artifact for the select suspending. -/
def PoolState.Get (p : PoolState)
    (ctxCanceled selectPicksReady adapterGives : Bool) : GetResult :=
  if p.resolved then
    if ctxCanceled && !selectPicksReady then GetResult.ctxError
    else
      match p.err with
      | some e => GetResult.storedError e
      | none =>
        if adapterGives then GetResult.conn
        else if ctxCanceled then GetResult.ctxError
        else GetResult.poolClosed
  else if ctxCanceled then GetResult.ctxError
  else GetResult.blocked

/-- All hooks nil. -/
def nilHooks {σ : Type} : Hooks σ :=
  { OnStartMigrate := none, OnReady := none, OnError := none }

/-- All hooks present but doing nothing. -/
def trivialHooks {σ : Type} : Hooks σ :=
  { OnStartMigrate := some fun s => s, OnReady := some fun s => s,
    OnError := some fun _ s => s }

/-- Environment trace in which every open attempt fails with the listed
error codes and every wait yields a retry signal. -/
def allFailRest {D : Type} (cs : List Nat) : List (WaitStep × OpenStep D) :=
  cs.map fun c => (WaitStep.retrySignal, OpenStep.openFail c)

/-- Full characterization of the migration loop over the pending scripts:
on success the final user_version is the start plus the number of pending
scripts, the trace executed exactly the pending indices in order, and the
data is the sequential composition of the pending scripts; on error the
failing index is named, the trace stops there, and the sequential
composition fails. -/
theorem migrateLoop_spec {D : Type} :
    ∀ (rest : List (Script D)) (v : Nat) (d : D),
    (∀ d2 v2 evs, migrateLoop rest v d = (Except.ok (d2, v2), evs) →
      v2 = v + rest.length ∧
      evs = (List.range' v rest.length).map Event.ranScript ∧
      runScriptsSeq rest d = some d2) ∧
    (∀ e evs, migrateLoop rest v d = (Except.error e, evs) →
      ∃ k, k < rest.length ∧ e = MigErr.applyMigration (v + k) ∧
        evs = (List.range' v (k + 1)).map Event.ranScript ∧
        runScriptsSeq rest d = none) := by
  intro rest
  induction rest with
  | nil =>
    intro v d
    constructor
    · intro d2 v2 evs hE
      rw [migrateLoop] at hE
      simp only [Prod.mk.injEq] at hE
      obtain ⟨hE1, hE2⟩ := hE
      injection hE1 with hE1
      injection hE1 with hd hv
      exact ⟨by simpa using hv.symm, by simp [← hE2], by rw [runScriptsSeq, hd]⟩
    · intro e evs hE
      rw [migrateLoop] at hE
      simp at hE
  | cons sc rest ih =>
    intro v d
    rcases hst : runStmts sc d with _ | d2
    · have hunf : migrateLoop (sc :: rest) v d
          = (Except.error (MigErr.applyMigration v), [Event.ranScript v]) := by
        rw [migrateLoop, hst]
      constructor
      · intro d3 v2 evs hE
        rw [hunf] at hE
        simp at hE
      · intro e evs hE
        rw [hunf] at hE
        simp only [Prod.mk.injEq] at hE
        obtain ⟨hE1, hE2⟩ := hE
        injection hE1 with hE1
        refine ⟨0, by simp, by simpa using hE1.symm, ?_, ?_⟩
        · rw [← hE2]
          simp [List.range'_succ]
        · rw [runScriptsSeq, hst]
    · have hunf : migrateLoop (sc :: rest) v d
          = ((migrateLoop rest (v + 1) d2).1,
            Event.ranScript v :: (migrateLoop rest (v + 1) d2).2) := by
        rw [migrateLoop, hst]
      constructor
      · intro d3 v2 evs hE
        rw [hunf] at hE
        simp only [Prod.mk.injEq] at hE
        obtain ⟨hE1, hE2⟩ := hE
        have hrec : migrateLoop rest (v + 1) d2
            = (Except.ok (d3, v2), (migrateLoop rest (v + 1) d2).2) := by
          rw [← hE1]
        obtain ⟨ihv, ihevs, ihseq⟩ := (ih (v + 1) d2).1 d3 v2 _ hrec
        refine ⟨by simp; omega, ?_, ?_⟩
        · rw [List.length_cons, List.range'_succ]
          simp only [List.map_cons]
          rw [← hE2, ihevs]
        · rw [runScriptsSeq, hst]
          exact ihseq
      · intro e evs hE
        rw [hunf] at hE
        simp only [Prod.mk.injEq] at hE
        obtain ⟨hE1, hE2⟩ := hE
        have hrec : migrateLoop rest (v + 1) d2
            = (Except.error e, (migrateLoop rest (v + 1) d2).2) := by
          rw [← hE1]
        obtain ⟨k, hk1, hk2, hkevs, hkseq⟩ := (ih (v + 1) d2).2 e _ hrec
        refine ⟨k + 1, by simp; omega, by rw [hk2]; congr 1; omega, ?_, ?_⟩
        · rw [List.range'_succ]
          simp only [List.map_cons]
          rw [← hE2, hkevs]
        · rw [runScriptsSeq, hst]
          exact hkseq

/-- Every event the migration loop emits is a script execution. -/
theorem migrateLoop_events_ranScript {D : Type} (rest : List (Script D))
    (v : Nat) (d : D) :
    ∀ ev ∈ (migrateLoop rest v d).2, ∃ i, ev = Event.ranScript i := by
  rcases hL : migrateLoop rest v d with ⟨res, evs⟩
  rcases res with e | dv
  · obtain ⟨k, _, _, hevs, _⟩ := (migrateLoop_spec rest v d).2 e evs hL
    intro ev hev
    rw [hevs] at hev
    simp only [List.mem_map] at hev
    obtain ⟨j, _, hj⟩ := hev
    exact ⟨j, hj.symm⟩
  · rcases dv with ⟨d2, v2⟩
    obtain ⟨_, hevs, _⟩ := (migrateLoop_spec rest v d).1 d2 v2 evs hL
    intro ev hev
    rw [hevs] at hev
    simp only [List.mem_map] at hev
    obtain ⟨j, _, hj⟩ := hev
    exact ⟨j, hj.symm⟩

/-- Unfolding of migrateDB in the identifier-mismatch case. -/
theorem migrateDB_mismatch_eq {D σ : Type} (hasSchema : D → Bool)
    (schema : Schema D) (onStart : SignalFunc σ) (db : DB D) (s : σ)
    (hcond : (db.appID != schema.AppID
      && !(db.appID == 0 && !hasSchema db.data)) = true) :
    migrateDB hasSchema schema onStart db s =
      { result := Except.error (MigErr.appIDMismatch db.appID schema.AppID),
        db := db, hookState := s, events := [] } := by
  unfold migrateDB
  rw [if_pos hcond]

/-- Unfolding of migrateDB when validation passes and the loop fails. -/
theorem migrateDB_valid_error_eq {D σ : Type} (hasSchema : D → Bool)
    (schema : Schema D) (onStart : SignalFunc σ) (db : DB D) (s : σ)
    (e : MigErr) (evs : List Event)
    (hcond : (db.appID != schema.AppID
      && !(db.appID == 0 && !hasSchema db.data)) = false)
    (hL : migrateLoop (schema.Migrations.drop db.userVersion) db.userVersion
      db.data = (Except.error e, evs)) :
    migrateDB hasSchema schema onStart db s =
      { result := Except.error e, db := db,
        hookState := SignalFunc.call onStart s,
        events := Event.wroteAppID schema.AppID :: Event.startMigrate :: evs } := by
  have hne : ¬((db.appID != schema.AppID
      && !(db.appID == 0 && !hasSchema db.data)) = true) := by
    rw [hcond]
    decide
  unfold migrateDB
  rw [if_neg hne, hL]

/-- Unfolding of migrateDB when validation passes and the loop succeeds. -/
theorem migrateDB_valid_ok_eq {D σ : Type} (hasSchema : D → Bool)
    (schema : Schema D) (onStart : SignalFunc σ) (db : DB D) (s : σ)
    (d2 : D) (v2 : Nat) (evs : List Event)
    (hcond : (db.appID != schema.AppID
      && !(db.appID == 0 && !hasSchema db.data)) = false)
    (hL : migrateLoop (schema.Migrations.drop db.userVersion) db.userVersion
      db.data = (Except.ok (d2, v2), evs)) :
    migrateDB hasSchema schema onStart db s =
      { result := Except.ok (),
        db := { appID := schema.AppID, userVersion := v2, data := d2 },
        hookState := SignalFunc.call onStart s,
        events := Event.wroteAppID schema.AppID :: Event.startMigrate :: evs } := by
  have hne : ¬((db.appID != schema.AppID
      && !(db.appID == 0 && !hasSchema db.data)) = true) := by
    rw [hcond]
    decide
  unfold migrateDB
  rw [if_neg hne, hL]

/-- C1 (amended): migrateDB leaves the database in one of exactly two states
relative to where it started: on success, migrated with user_version equal
to max(starting user_version, len(migrations)) — in particular at least
len(migrations), and exactly len(migrations) whenever the start was at most
len(migrations); on any error return, byte-for-byte unchanged, because the
outer savepoint rolls the whole attempt back. -/
theorem migrateDB_two_states {D σ : Type} (hasSchema : D → Bool)
    (schema : Schema D) (onStart : SignalFunc σ) (db : DB D) (s : σ) :
    ((migrateDB hasSchema schema onStart db s).result = Except.ok () ∧
      (migrateDB hasSchema schema onStart db s).db.userVersion =
        max db.userVersion schema.Migrations.length) ∨
    (∃ e, (migrateDB hasSchema schema onStart db s).result = Except.error e ∧
      (migrateDB hasSchema schema onStart db s).db = db) := by
  by_cases hcond :
      (db.appID != schema.AppID && !(db.appID == 0 && !hasSchema db.data)) = true
  · right
    rw [migrateDB_mismatch_eq hasSchema schema onStart db s hcond]
    exact ⟨_, rfl, rfl⟩
  · rw [Bool.not_eq_true] at hcond
    rcases hL : migrateLoop (schema.Migrations.drop db.userVersion)
        db.userVersion db.data with ⟨res, evs⟩
    rcases res with e | dv
    · right
      rw [migrateDB_valid_error_eq hasSchema schema onStart db s e evs hcond hL]
      exact ⟨e, rfl, rfl⟩
    · left
      rcases dv with ⟨d2, v2⟩
      obtain ⟨hv, -, -⟩ :=
        (migrateLoop_spec (schema.Migrations.drop db.userVersion)
          db.userVersion db.data).1 d2 v2 evs hL
      rw [migrateDB_valid_ok_eq hasSchema schema onStart db s d2 v2 evs hcond hL]
      refine ⟨rfl, ?_⟩
      have hdrop : (schema.Migrations.drop db.userVersion).length
          = schema.Migrations.length - db.userVersion := List.length_drop ..
      simp only
      omega

/-- C1 counterexample: a database whose user_version already exceeds the
migration count is accepted unchanged, so migrateDB succeeds with
user_version different from len(migrations). -/
theorem migrateDB_success_version_counterexample :
    (migrateDB (fun (_ : Unit) => false) { AppID := 1, Migrations := [] }
        (none : SignalFunc Unit) { appID := 1, userVersion := 1, data := () }
        ()).result = Except.ok () ∧
    ¬ ((migrateDB (fun (_ : Unit) => false) { AppID := 1, Migrations := [] }
        (none : SignalFunc Unit) { appID := 1, userVersion := 1, data := () }
        ()).db.userVersion
      = ({ AppID := 1, Migrations := [] } : Schema Unit).Migrations.length) := by
  constructor
  · rfl
  · decide

/-- C4: when the persisted user_version is at least len(Migrations) and the
application id validates, migrateDB succeeds, executes zero scripts, leaves
user_version and the data untouched, and still writes application_id. -/
theorem migrateDB_already_migrated {D σ : Type} (hasSchema : D → Bool)
    (schema : Schema D) (onStart : SignalFunc σ) (db : DB D) (s : σ)
    (hv : schema.Migrations.length ≤ db.userVersion)
    (hvalid : (db.appID != schema.AppID
      && !(db.appID == 0 && !hasSchema db.data)) = false) :
    (migrateDB hasSchema schema onStart db s).result = Except.ok () ∧
    ranOf (migrateDB hasSchema schema onStart db s).events = [] ∧
    (migrateDB hasSchema schema onStart db s).db.userVersion = db.userVersion ∧
    (migrateDB hasSchema schema onStart db s).db.data = db.data ∧
    (migrateDB hasSchema schema onStart db s).db.appID = schema.AppID := by
  have hdrop : schema.Migrations.drop db.userVersion = [] :=
    List.drop_eq_nil_of_le hv
  have hL : migrateLoop (schema.Migrations.drop db.userVersion) db.userVersion
      db.data = (Except.ok (db.data, db.userVersion), []) := by
    rw [hdrop, migrateLoop]
  rw [migrateDB_valid_ok_eq hasSchema schema onStart db s db.data db.userVersion
    [] hvalid hL]
  exact ⟨rfl, rfl, rfl, rfl, rfl⟩

/-- C4 witness at a concrete input. -/
theorem migrateDB_already_migrated_witness :
    ({ AppID := 7, Migrations := [[fun d => some d]] } : Schema Unit).Migrations.length ≤ 3 ∧
    (((7 : Int) != 7 && !((7 : Int) == 0 && !(fun (_ : Unit) => true) ())) = false) ∧
    (migrateDB (fun (_ : Unit) => true)
        ({ AppID := 7, Migrations := [[fun d => some d]] } : Schema Unit)
        (none : SignalFunc Unit)
        { appID := 7, userVersion := 3, data := () } ()).result = Except.ok () :=
  ⟨by decide, by decide,
    (migrateDB_already_migrated (fun (_ : Unit) => true)
      ({ AppID := 7, Migrations := [[fun d => some d]] } : Schema Unit)
      (none : SignalFunc Unit)
      { appID := 7, userVersion := 3, data := () } ()
      (by decide) (by decide)).1⟩


/-- Filtering a pure script trace recovers the indices. -/
theorem ranOf_map_ranScript (l : List Nat) :
    ranOf (l.map Event.ranScript) = l := by
  induction l with
  | nil => rfl
  | cons a l ih =>
    simp only [List.map_cons, ranOf, List.filterMap_cons] at ih ⊢
    rw [ih]

/-- The two bookkeeping events before the loop execute no script. -/
theorem ranOf_cons_bookkeeping (a : Int) (evs : List Event) :
    ranOf (Event.wroteAppID a :: Event.startMigrate :: evs) = ranOf evs := by
  simp only [ranOf, List.filterMap_cons]

/-- C2: with a validating application id and user_version = v < len(Migrations),
migrateDB executes exactly the pending scripts v, v+1, ..., in that order: on
success it ran indices v..len-1, the final user_version is len(Migrations)
and the final data is the sequential composition of the pending scripts
(each script committing together with its version bump); on the first script
failure it returns an error naming the failing index i, has attempted
exactly indices v..i, and the database is unchanged. -/
theorem migrateDB_runs_pending_in_order {D σ : Type} (hasSchema : D → Bool)
    (schema : Schema D) (onStart : SignalFunc σ) (db : DB D) (s : σ)
    (hv : db.userVersion < schema.Migrations.length)
    (hvalid : (db.appID != schema.AppID
      && !(db.appID == 0 && !hasSchema db.data)) = false) :
    ((migrateDB hasSchema schema onStart db s).result = Except.ok () →
      ranOf (migrateDB hasSchema schema onStart db s).events
        = List.range' db.userVersion
            (schema.Migrations.length - db.userVersion) ∧
      (migrateDB hasSchema schema onStart db s).db.userVersion
        = schema.Migrations.length ∧
      runScriptsSeq (schema.Migrations.drop db.userVersion) db.data
        = some (migrateDB hasSchema schema onStart db s).db.data) ∧
    (∀ e, (migrateDB hasSchema schema onStart db s).result = Except.error e →
      ∃ i, e = MigErr.applyMigration i ∧ db.userVersion ≤ i ∧
        i < schema.Migrations.length ∧
        ranOf (migrateDB hasSchema schema onStart db s).events
          = List.range' db.userVersion (i - db.userVersion + 1) ∧
        (migrateDB hasSchema schema onStart db s).db = db) := by
  have hdroplen : (schema.Migrations.drop db.userVersion).length
      = schema.Migrations.length - db.userVersion := List.length_drop ..
  rcases hL : migrateLoop (schema.Migrations.drop db.userVersion)
      db.userVersion db.data with ⟨res, evs⟩
  rcases res with e | dv
  · obtain ⟨k, hklen, hke, hkevs, -⟩ :=
      (migrateLoop_spec (schema.Migrations.drop db.userVersion)
        db.userVersion db.data).2 e evs hL
    rw [migrateDB_valid_error_eq hasSchema schema onStart db s e evs hvalid hL]
    constructor
    · intro hok
      exact absurd hok (by simp)
    · intro e2 he2
      injection he2 with he2
      refine ⟨db.userVersion + k, by rw [← he2, hke], by omega, by omega, ?_, rfl⟩
      rw [ranOf_cons_bookkeeping, hkevs, ranOf_map_ranScript]
      congr 1
      omega
  · rcases dv with ⟨d2, v2⟩
    obtain ⟨hv2, hevs, hseq⟩ :=
      (migrateLoop_spec (schema.Migrations.drop db.userVersion)
        db.userVersion db.data).1 d2 v2 evs hL
    rw [migrateDB_valid_ok_eq hasSchema schema onStart db s d2 v2 evs hvalid hL]
    constructor
    · intro _
      refine ⟨?_, ?_, ?_⟩
      · rw [ranOf_cons_bookkeeping, hevs, ranOf_map_ranScript, hdroplen]
      · simp only
        omega
      · rw [hseq]
    · intro e2 he2
      exact absurd he2 (by simp)

/-- C2 witness: two scripts from a fresh database run in order and compose. -/
theorem migrateDB_runs_pending_in_order_witness :
    (({ appID := 5, userVersion := 0, data := 3 } : DB Nat).userVersion
      < ({ AppID := 5, Migrations := [[fun n => some (n + 1)], [fun n => some (n * 2)]] } : Schema Nat).Migrations.length) ∧
    (((5 : Int) != 5 && !((5 : Int) == 0 && !(fun (_ : Nat) => true) 3)) = false) ∧
    ranOf (migrateDB (fun (_ : Nat) => true)
        ({ AppID := 5, Migrations := [[fun n => some (n + 1)], [fun n => some (n * 2)]] } : Schema Nat)
        (none : SignalFunc Unit)
        { appID := 5, userVersion := 0, data := 3 } ()).events = [0, 1] ∧
    (migrateDB (fun (_ : Nat) => true)
        ({ AppID := 5, Migrations := [[fun n => some (n + 1)], [fun n => some (n * 2)]] } : Schema Nat)
        (none : SignalFunc Unit)
        { appID := 5, userVersion := 0, data := 3 } ()).db.data = 8 := by
  refine ⟨by decide, by decide, ?_, by rfl⟩
  have h := (migrateDB_runs_pending_in_order (fun (_ : Nat) => true)
    ({ AppID := 5, Migrations := [[fun n => some (n + 1)], [fun n => some (n * 2)]] } : Schema Nat)
    (none : SignalFunc Unit)
    { appID := 5, userVersion := 0, data := 3 } ()
    (by decide) (by decide)).1 rfl
  exact h.1


/-- C3: migrateDB fails with the identifier-mismatch error exactly when the
persisted application_id differs from schema.AppID and the database is not
fresh (application_id 0 with no schema objects); in the mismatch case it
leaves the database untouched, calls no hook and emits no event (so neither
OnStartMigrate nor, at the openPool level, OnReady fires and no script
runs); when validation passes it writes application_id = schema.AppID, and
on success the persisted application_id equals schema.AppID. -/
theorem migrateDB_appID_validation {D σ : Type} :
    (∀ (hasSchema : D → Bool) (schema : Schema D) (onStart : SignalFunc σ)
        (db : DB D) (s : σ),
      ((migrateDB hasSchema schema onStart db s).result
          = Except.error (MigErr.appIDMismatch db.appID schema.AppID) ↔
        (db.appID != schema.AppID
          && !(db.appID == 0 && !hasSchema db.data)) = true) ∧
      ((db.appID != schema.AppID
          && !(db.appID == 0 && !hasSchema db.data)) = true →
        (migrateDB hasSchema schema onStart db s).db = db ∧
        (migrateDB hasSchema schema onStart db s).hookState = s ∧
        (migrateDB hasSchema schema onStart db s).events = []) ∧
      ((db.appID != schema.AppID
          && !(db.appID == 0 && !hasSchema db.data)) = false →
        Event.wroteAppID schema.AppID
            ∈ (migrateDB hasSchema schema onStart db s).events ∧
        ((migrateDB hasSchema schema onStart db s).result = Except.ok () →
          (migrateDB hasSchema schema onStart db s).db.appID = schema.AppID))) ∧
    (∀ (hasSchema : D → Bool) (schema : Schema D) (hooks : Hooks σ)
        (db : DB D) (cc : Option Nat) (s : σ),
      (db.appID != schema.AppID
        && !(db.appID == 0 && !hasSchema db.data)) = true →
      (openPool hasSchema schema hooks (OpenStep.openOK db false cc) [] s).outcome
          = OpenOutcome.err
            (PoolErr.migrate (MigErr.appIDMismatch db.appID schema.AppID)) ∧
      Event.ready
          ∉ (openPool hasSchema schema hooks (OpenStep.openOK db false cc) [] s).events ∧
      Event.startMigrate
          ∉ (openPool hasSchema schema hooks (OpenStep.openOK db false cc) [] s).events) := by
  constructor
  · intro hasSchema schema onStart db s
    by_cases hcond : (db.appID != schema.AppID
        && !(db.appID == 0 && !hasSchema db.data)) = true
    · have hm := migrateDB_mismatch_eq hasSchema schema onStart db s hcond
      refine ⟨⟨fun _ => hcond, fun _ => by rw [hm]⟩, ?_, ?_⟩
      · intro _
        rw [hm]
        exact ⟨rfl, rfl, rfl⟩
      · intro hfalse
        rw [hcond] at hfalse
        exact absurd hfalse (by decide)
    · rw [Bool.not_eq_true] at hcond
      rcases hL : migrateLoop (schema.Migrations.drop db.userVersion)
          db.userVersion db.data with ⟨res, evs⟩
      rcases res with e | dv
      · obtain ⟨k, -, hke, -, -⟩ :=
          (migrateLoop_spec (schema.Migrations.drop db.userVersion)
            db.userVersion db.data).2 e evs hL
        have hm := migrateDB_valid_error_eq hasSchema schema onStart db s e evs
          hcond hL
        refine ⟨⟨?_, ?_⟩, ?_, ?_⟩
        · intro hres
          rw [hm] at hres
          injection hres with hres
          rw [hke] at hres
          exact absurd hres (by simp)
        · intro htrue
          rw [htrue] at hcond
          exact absurd hcond (by decide)
        · intro htrue
          rw [htrue] at hcond
          exact absurd hcond (by decide)
        · intro _
          rw [hm]
          refine ⟨by simp, ?_⟩
          intro hres
          exact absurd hres (by simp)
      · rcases dv with ⟨d2, v2⟩
        have hm := migrateDB_valid_ok_eq hasSchema schema onStart db s d2 v2 evs
          hcond hL
        refine ⟨⟨?_, ?_⟩, ?_, ?_⟩
        · intro hres
          rw [hm] at hres
          exact absurd hres (by simp)
        · intro htrue
          rw [htrue] at hcond
          exact absurd hcond (by decide)
        · intro htrue
          rw [htrue] at hcond
          exact absurd hcond (by decide)
        · intro _
          rw [hm]
          exact ⟨by simp, fun _ => rfl⟩
  · intro hasSchema schema hooks db cc s hcond
    have hm := migrateDB_mismatch_eq hasSchema schema hooks.OnStartMigrate db s
      hcond
    rcases cc with _ | c <;>
      simp [openPool, openPoolGo, hm]

/-- C3 witness: a database stamped with a foreign application id is
rejected untouched. -/
theorem migrateDB_appID_validation_witness :
    (((9 : Int) != 4 && !((9 : Int) == 0 && !(fun (_ : Unit) => true) ())) = true) ∧
    (migrateDB (fun (_ : Unit) => true)
        ({ AppID := 4, Migrations := [] } : Schema Unit) (none : SignalFunc Unit)
        { appID := 9, userVersion := 0, data := () } ()).result
      = Except.error (MigErr.appIDMismatch 9 4) ∧
    (migrateDB (fun (_ : Unit) => true)
        ({ AppID := 4, Migrations := [] } : Schema Unit) (none : SignalFunc Unit)
        { appID := 9, userVersion := 0, data := () } ()).events = [] := by
  refine ⟨by decide, ?_, ?_⟩
  · exact (migrateDB_appID_validation.1 (fun (_ : Unit) => true)
      ({ AppID := 4, Migrations := [] } : Schema Unit) (none : SignalFunc Unit)
      { appID := 9, userVersion := 0, data := () } ()).1.mpr (by decide)
  · exact ((migrateDB_appID_validation.1 (fun (_ : Unit) => true)
      ({ AppID := 4, Migrations := [] } : Schema Unit) (none : SignalFunc Unit)
      { appID := 9, userVersion := 0, data := () } ()).2.1 (by decide)).2.2


/-- The migration loop never emits the start-migrate event. -/
theorem count_startMigrate_loopEvents {D : Type} (rest : List (Script D))
    (v : Nat) (d : D) :
    List.count Event.startMigrate (migrateLoop rest v d).2 = 0 := by
  rw [List.count_eq_zero]
  intro hmem
  obtain ⟨i, hi⟩ := migrateLoop_events_ranScript rest v d _ hmem
  simp at hi

/-- When validation passes, the trace of migrateDB is the application_id
write, then the start-migrate call, then only script executions. -/
theorem migrateDB_events_shape {D σ : Type} (hasSchema : D → Bool)
    (schema : Schema D) (onStart : SignalFunc σ) (db : DB D) (s : σ)
    (hvalid : (db.appID != schema.AppID
      && !(db.appID == 0 && !hasSchema db.data)) = false) :
    ∃ tail, (migrateDB hasSchema schema onStart db s).events
        = Event.wroteAppID schema.AppID :: Event.startMigrate :: tail ∧
      (∀ ev ∈ tail, ∃ i, ev = Event.ranScript i) ∧
      List.count Event.startMigrate tail = 0 := by
  rcases hL : migrateLoop (schema.Migrations.drop db.userVersion)
      db.userVersion db.data with ⟨res, evs⟩
  have hevs2 : (migrateLoop (schema.Migrations.drop db.userVersion)
      db.userVersion db.data).2 = evs := by rw [hL]
  have htail : ∀ ev ∈ evs, ∃ i, ev = Event.ranScript i := by
    rw [← hevs2]
    exact migrateLoop_events_ranScript _ _ _
  have hcount : List.count Event.startMigrate evs = 0 := by
    rw [← hevs2]
    exact count_startMigrate_loopEvents ..
  rcases res with e | dv
  · rw [migrateDB_valid_error_eq hasSchema schema onStart db s e evs hvalid hL]
    exact ⟨evs, rfl, htail, hcount⟩
  · rcases dv with ⟨d2, v2⟩
    rw [migrateDB_valid_ok_eq hasSchema schema onStart db s d2 v2 evs hvalid hL]
    exact ⟨evs, rfl, htail, hcount⟩

/-- Any single migrateDB run reaches the OnStartMigrate call site at most
once. -/
theorem migrateDB_count_startMigrate_le {D σ : Type} (hasSchema : D → Bool)
    (schema : Schema D) (onStart : SignalFunc σ) (db : DB D) (s : σ) :
    List.count Event.startMigrate
      (migrateDB hasSchema schema onStart db s).events ≤ 1 := by
  by_cases hcond : (db.appID != schema.AppID
      && !(db.appID == 0 && !hasSchema db.data)) = true
  · rw [migrateDB_mismatch_eq hasSchema schema onStart db s hcond]
    simp
  · rw [Bool.not_eq_true] at hcond
    obtain ⟨tail, hsh, -, hcount⟩ :=
      migrateDB_events_shape hasSchema schema onStart db s hcond
    rw [hsh]
    simp [List.count_cons, hcount]

/-- The success branch of an open attempt reaches the OnStartMigrate call
site at most once, whatever follows in the environment trace. -/
theorem openPoolGo_openOK_count {D σ : Type} (hasSchema : D → Bool)
    (schema : Schema D) (hooks : Hooks σ) (db : DB D) (canceled : Bool)
    (cc : Option Nat) (rest : List (WaitStep × OpenStep D)) (s : σ) :
    List.count Event.startMigrate
      (openPoolGo hasSchema schema hooks (OpenStep.openOK db canceled cc)
        rest s).events ≤ 1 := by
  rcases canceled with _ | _
  · rcases hres : (migrateDB hasSchema schema hooks.OnStartMigrate db s).result
        with e | u
    · rcases cc with _ | c <;>
        simp [openPoolGo, hres, List.count_append, List.count_cons,
          migrateDB_count_startMigrate_le]
    · simp [openPoolGo, hres, List.count_append, List.count_cons,
        migrateDB_count_startMigrate_le]
  · simp [openPoolGo]

/-- The whole background loop reaches the OnStartMigrate call site at most
once: migrateDB runs in at most one iteration. -/
theorem openPoolGo_count_startMigrate {D σ : Type} (hasSchema : D → Bool)
    (schema : Schema D) (hooks : Hooks σ) :
    ∀ (first : OpenStep D) (rest : List (WaitStep × OpenStep D)) (s : σ),
      List.count Event.startMigrate
        (openPoolGo hasSchema schema hooks first rest s).events ≤ 1 := by
  intro first rest
  induction rest generalizing first with
  | nil =>
    intro s
    rcases first with code | ⟨db, canceled, cc⟩
    · simp [openPoolGo, List.count_cons]
    · exact openPoolGo_openOK_count ..
  | cons p rest2 ih =>
    intro s
    rcases p with ⟨w, o⟩
    rcases first with code | ⟨db, canceled, cc⟩
    · rcases w with _ | _
      · simp only [openPoolGo]
        rw [List.count_cons]
        simp only [beq_iff_eq]
        have := ih o (ReportFunc.call hooks.OnError (ReportedErr.openFailed code) s)
        simp only [reduceCtorEq, if_false]
        omega
      · simp [openPoolGo, List.count_cons]
    · exact openPoolGo_openOK_count ..

/-- C5: in any single attempt with passing validation, the OnStartMigrate
call site is reached exactly once, after the identifier write and before
any script execution (also when no script will run); and over a Pool's
whole background task it is reached at most once. -/
theorem migrateDB_onStart_once {D σ : Type} :
    (∀ (hasSchema : D → Bool) (schema : Schema D) (onStart : SignalFunc σ)
        (db : DB D) (s : σ),
      (db.appID != schema.AppID
        && !(db.appID == 0 && !hasSchema db.data)) = false →
      List.count Event.startMigrate
        (migrateDB hasSchema schema onStart db s).events = 1 ∧
      ∃ tail, (migrateDB hasSchema schema onStart db s).events
          = Event.wroteAppID schema.AppID :: Event.startMigrate :: tail ∧
        ∀ ev ∈ tail, ∃ i, ev = Event.ranScript i) ∧
    (∀ (hasSchema : D → Bool) (schema : Schema D) (hooks : Hooks σ)
        (first : OpenStep D) (rest : List (WaitStep × OpenStep D)) (s : σ),
      List.count Event.startMigrate
        (newPoolTask hasSchema schema hooks first rest s).events ≤ 1) := by
  constructor
  · intro hasSchema schema onStart db s hvalid
    obtain ⟨tail, hsh, htail, hcount⟩ :=
      migrateDB_events_shape hasSchema schema onStart db s hvalid
    refine ⟨?_, tail, hsh, htail⟩
    rw [hsh]
    simp [List.count_cons, hcount]
  · intro hasSchema schema hooks first rest s
    have hgo := openPoolGo_count_startMigrate hasSchema schema hooks first rest s
    rcases hout : (openPoolGo hasSchema schema hooks first rest s).outcome
        with db | e | _
    · simp [newPoolTask, openPool, hout]
      exact hgo
    · simp [newPoolTask, openPool, hout, List.count_append, List.count_cons]
      exact hgo
    · simp [newPoolTask, openPool, hout]
      exact hgo

/-- C5 witness: an empty-migration schema on a fresh database fires the
start hook exactly once. -/
theorem migrateDB_onStart_once_witness :
    (((0 : Int) != 6 && !((0 : Int) == 0 && !(fun (_ : Unit) => false) ())) = false) ∧
    List.count Event.startMigrate
      (migrateDB (fun (_ : Unit) => false)
        ({ AppID := 6, Migrations := [] } : Schema Unit) (none : SignalFunc Unit)
        { appID := 0, userVersion := 0, data := () } ()).events = 1 := by
  refine ⟨by decide, ?_⟩
  exact ((migrateDB_onStart_once).1 (fun (_ : Unit) => false)
    ({ AppID := 6, Migrations := [] } : Schema Unit) (none : SignalFunc Unit)
    { appID := 0, userVersion := 0, data := () } () (by decide)).1


/-- Over a trace in which every open attempt fails and every wait yields a
retry signal, the loop reports every single failure through OnError, starts
a new attempt after each failure, and is still retrying at the end of the
trace: it never gives up on its own. -/
theorem openPoolGo_allFail {D σ : Type} (hasSchema : D → Bool)
    (schema : Schema D) (hooks : Hooks σ) :
    ∀ (cs : List Nat) (c : Nat) (s : σ),
      openPoolGo hasSchema schema hooks (OpenStep.openFail c) (allFailRest cs) s
        = { outcome := OpenOutcome.stillRetrying,
            hookState := (c :: cs).foldl
              (fun st k =>
                ReportFunc.call hooks.OnError (ReportedErr.openFailed k) st) s,
            events := (c :: cs).map
              (fun k => Event.reportedError (ReportedErr.openFailed k)) } := by
  intro cs
  induction cs with
  | nil =>
    intro c s
    rfl
  | cons c2 cs2 ih =>
    intro c s
    show openPoolGo hasSchema schema hooks (OpenStep.openFail c)
        ((WaitStep.retrySignal, OpenStep.openFail c2) :: allFailRest cs2) s = _
    simp only [openPoolGo]
    rw [ih c2 (ReportFunc.call hooks.OnError (ReportedErr.openFailed c) s)]
    rfl

/-- The success branch of an open attempt can only end in a migration error
or the cancellation error, never in an open-failure verdict. -/
theorem openPoolGo_openOK_err {D σ : Type} (hasSchema : D → Bool)
    (schema : Schema D) (hooks : Hooks σ) (db : DB D) (canceled : Bool)
    (cc : Option Nat) (rest : List (WaitStep × OpenStep D)) (s : σ) (e : PoolErr) :
    (openPoolGo hasSchema schema hooks (OpenStep.openOK db canceled cc)
        rest s).outcome = OpenOutcome.err e →
    e = PoolErr.closedBeforeMigration ∨ ∃ me, e = PoolErr.migrate me := by
  rcases canceled with _ | _
  · rcases hres : (migrateDB hasSchema schema hooks.OnStartMigrate db s).result
        with me | u
    · rcases cc with _ | k <;>
        · simp [openPoolGo, hres]
          intro h
          exact Or.inr ⟨me, h.symm⟩
    · simp [openPoolGo, hres]
  · simp [openPoolGo]
    intro h
    exact Or.inl h.symm

/-- Any terminal error of the background loop is either the
closed-before-migration error or a migration error: a failed open never
terminates the loop. -/
theorem openPoolGo_err_classified {D σ : Type} (hasSchema : D → Bool)
    (schema : Schema D) (hooks : Hooks σ) :
    ∀ (first : OpenStep D) (rest : List (WaitStep × OpenStep D)) (s : σ)
      (e : PoolErr),
      (openPoolGo hasSchema schema hooks first rest s).outcome
          = OpenOutcome.err e →
      e = PoolErr.closedBeforeMigration ∨ ∃ me, e = PoolErr.migrate me := by
  intro first rest
  induction rest generalizing first with
  | nil =>
    intro s e
    rcases first with code | ⟨db, canceled, cc⟩
    · simp [openPoolGo]
    · exact openPoolGo_openOK_err hasSchema schema hooks db canceled cc [] s e
  | cons p rest2 ih =>
    intro s e
    rcases p with ⟨w, o⟩
    rcases first with code | ⟨db, canceled, cc⟩
    · rcases w with _ | _
      · simp only [openPoolGo]
        exact ih o _ e
      · simp [openPoolGo]
        intro h
        exact Or.inl h.symm
    · exact openPoolGo_openOK_err hasSchema schema hooks db canceled cc
        ((w, o) :: rest2) s e

/-- C6: every transient open failure is reported through the OnError hook
and followed by a wait for a retry signal or cancellation and then another
attempt; over an all-failure trace the loop is still retrying at the end
(it retries indefinitely, never terminating because of an open failure),
and a cancellation between attempts ends it with the
closed-before-migration error. -/
theorem openPool_transient_retry {D σ : Type} :
    (∀ (hasSchema : D → Bool) (schema : Schema D) (hooks : Hooks σ) (c : Nat)
        (cs : List Nat) (s : σ),
      (openPool hasSchema schema hooks (OpenStep.openFail c)
          (allFailRest cs) s).outcome = OpenOutcome.stillRetrying ∧
      (openPool hasSchema schema hooks (OpenStep.openFail c)
          (allFailRest cs) s).events
        = (c :: cs).map (fun k => Event.reportedError (ReportedErr.openFailed k)) ∧
      (openPool hasSchema schema hooks (OpenStep.openFail c)
          (allFailRest cs) s).hookState
        = (c :: cs).foldl
            (fun st k =>
              ReportFunc.call hooks.OnError (ReportedErr.openFailed k) st) s) ∧
    (∀ (hasSchema : D → Bool) (schema : Schema D) (hooks : Hooks σ)
        (first : OpenStep D) (rest : List (WaitStep × OpenStep D)) (s : σ)
        (e : PoolErr),
      (openPool hasSchema schema hooks first rest s).outcome
          = OpenOutcome.err e →
      e = PoolErr.closedBeforeMigration ∨ ∃ me, e = PoolErr.migrate me) ∧
    (∀ (hasSchema : D → Bool) (schema : Schema D) (hooks : Hooks σ) (c : Nat)
        (o : OpenStep D) (rest : List (WaitStep × OpenStep D)) (s : σ),
      (openPool hasSchema schema hooks (OpenStep.openFail c)
          ((WaitStep.canceledWait, o) :: rest) s).outcome
        = OpenOutcome.err PoolErr.closedBeforeMigration) := by
  refine ⟨?_, ?_, ?_⟩
  · intro hasSchema schema hooks c cs s
    rw [openPool, openPoolGo_allFail hasSchema schema hooks cs c s]
    exact ⟨rfl, rfl, rfl⟩
  · intro hasSchema schema hooks first rest s e
    exact openPoolGo_err_classified hasSchema schema hooks first rest s e
  · intro hasSchema schema hooks c o rest s
    rfl

/-- C6 witness: a concrete terminal error is correctly classified. -/
theorem openPool_transient_retry_witness :
    PoolErr.closedBeforeMigration = PoolErr.closedBeforeMigration ∨
      ∃ me, PoolErr.closedBeforeMigration = PoolErr.migrate me :=
  (openPool_transient_retry).2.1 (fun (_ : Unit) => false)
    ({ AppID := 0, Migrations := [] } : Schema Unit) (nilHooks : Hooks Unit)
    (OpenStep.openFail 0) [(WaitStep.canceledWait, OpenStep.openFail 1)] ()
    PoolErr.closedBeforeMigration rfl


/-- C7: the first Close sets the closed flag, cancels the background task,
waits for it, closes the adapter pool when one exists and returns that
close's result (nil when no adapter exists); a second Close returns the
already-closed error with no side effects and no state change. -/
theorem pool_close_first_then_already_closed (p : PoolState)
    (a a2 : Option Nat) (h : p.closed = false) :
    (PoolState.Close p a).1 = Except.ok (if p.pool then a else none) ∧
    (PoolState.Close p a).2.1 = { p with closed := true } ∧
    (PoolState.Close p a).2.2
      = CloseAction.cancelBackground :: CloseAction.waitReady ::
          (if p.pool then [CloseAction.closeAdapter] else []) ∧
    PoolState.Close ((PoolState.Close p a).2.1) a2
      = (Except.error (), (PoolState.Close p a).2.1, []) := by
  rcases hp : p.pool with _ | _ <;>
    simp [PoolState.Close, h, hp]

/-- C7 witness: closing a resolved pool without an adapter succeeds, and a
second Close fails. -/
theorem pool_close_witness :
    ({ resolved := true, pool := false, err := none, closed := false }
        : PoolState).closed = false ∧
    (PoolState.Close
        { resolved := true, pool := false, err := none, closed := false }
        none).1 = Except.ok none ∧
    (PoolState.Close (PoolState.Close
        { resolved := true, pool := false, err := none, closed := false }
        none).2.1 none).1 = Except.error () := by
  have h := pool_close_first_then_already_closed
    { resolved := true, pool := false, err := none, closed := false } none none
    rfl
  exact ⟨rfl, h.1, by rw [h.2.2.2]⟩

/-- C8: CheckHealth is a total case analysis of the pool state: an error
when closed (whatever the rest of the state), an error while unresolved,
the stored terminal error when resolved with one, and success when resolved
without one. -/
theorem checkHealth_cases (p : PoolState) :
    (p.closed = true → PoolState.CheckHealth p = some HealthErr.closedPool) ∧
    (p.closed = false → p.resolved = false →
      PoolState.CheckHealth p = some HealthErr.notReady) ∧
    (∀ e, p.closed = false → p.resolved = true → p.err = some e →
      PoolState.CheckHealth p = some (HealthErr.migrationFailed e)) ∧
    (p.closed = false → p.resolved = true → p.err = none →
      PoolState.CheckHealth p = none) := by
  refine ⟨?_, ?_, ?_, ?_⟩
  · intro h
    simp [PoolState.CheckHealth, h]
  · intro h1 h2
    simp [PoolState.CheckHealth, h1, h2]
  · intro e h1 h2 h3
    simp [PoolState.CheckHealth, h1, h2, h3]
  · intro h1 h2 h3
    simp [PoolState.CheckHealth, h1, h2, h3]

/-- C8 witness: a closed pool reports unhealthy even when it had resolved
successfully. -/
theorem checkHealth_witness :
    ({ resolved := true, pool := true, err := none, closed := true }
        : PoolState).closed = true ∧
    PoolState.CheckHealth
        { resolved := true, pool := true, err := none, closed := true }
      = some HealthErr.closedPool :=
  ⟨rfl, (checkHealth_cases
    { resolved := true, pool := true, err := none, closed := true }).1 rfl⟩

/-- C9: once the pool has resolved with a stored terminal error, every Get
with a live context returns exactly that stored error, and no Get — whatever
the context or the adapter would do — ever yields a connection. -/
theorem get_after_ready_error (p : PoolState) (e : PoolErr)
    (h1 : p.resolved = true) (h2 : p.err = some e) :
    (∀ sel ad, PoolState.Get p false sel ad = GetResult.storedError e) ∧
    (∀ c sel ad, PoolState.Get p c sel ad ≠ GetResult.conn) := by
  constructor
  · intro sel ad
    simp [PoolState.Get, h1, h2]
  · intro c sel ad
    rcases c with _ | _ <;> rcases sel with _ | _ <;>
      simp [PoolState.Get, h1, h2]

/-- C9 witness: a pool stuck on the closed-before-migration error serves it
to a caller with a live context. -/
theorem get_after_ready_error_witness :
    ({ resolved := true, pool := false,
        err := some PoolErr.closedBeforeMigration, closed := false }
        : PoolState).resolved = true ∧
    ({ resolved := true, pool := false,
        err := some PoolErr.closedBeforeMigration, closed := false }
        : PoolState).err = some PoolErr.closedBeforeMigration ∧
    PoolState.Get
        { resolved := true, pool := false,
          err := some PoolErr.closedBeforeMigration, closed := false }
        false false false
      = GetResult.storedError PoolErr.closedBeforeMigration :=
  ⟨rfl, rfl,
    (get_after_ready_error
      { resolved := true, pool := false,
        err := some PoolErr.closedBeforeMigration, closed := false }
      PoolErr.closedBeforeMigration rfl rfl).1 false false⟩

/-- Replacing a nil OnStartMigrate hook by a do-nothing hook does not change
migrateDB at all. -/
theorem migrateDB_congr_onStart {D σ : Type} (hasSchema : D → Bool)
    (schema : Schema D) (o1 o2 : SignalFunc σ)
    (hS : SignalFunc.call o1 = SignalFunc.call o2) (db : DB D) (s : σ) :
    migrateDB hasSchema schema o1 db s = migrateDB hasSchema schema o2 db s := by
  unfold migrateDB
  rw [hS]

/-- Two hook records whose call behaviors agree drive the background loop
identically. -/
theorem openPoolGo_congr_hooks {D σ : Type} (hasSchema : D → Bool)
    (schema : Schema D) (h1 h2 : Hooks σ)
    (hS : SignalFunc.call h1.OnStartMigrate = SignalFunc.call h2.OnStartMigrate)
    (hR : SignalFunc.call h1.OnReady = SignalFunc.call h2.OnReady)
    (hE : ReportFunc.call h1.OnError = ReportFunc.call h2.OnError) :
    ∀ (first : OpenStep D) (rest : List (WaitStep × OpenStep D)) (s : σ),
      openPoolGo hasSchema schema h1 first rest s
        = openPoolGo hasSchema schema h2 first rest s := by
  intro first rest
  induction rest generalizing first with
  | nil =>
    intro s
    rcases first with code | ⟨db, canceled, cc⟩
    · simp only [openPoolGo]
      rw [hE]
    · simp only [openPoolGo]
      rw [hE, hR, migrateDB_congr_onStart hasSchema schema h1.OnStartMigrate
        h2.OnStartMigrate hS db s]
  | cons p rest2 ih =>
    intro s
    rcases p with ⟨w, o⟩
    rcases first with code | ⟨db, canceled, cc⟩
    · rcases w with _ | _
      · simp only [openPoolGo]
        rw [hE, ih o]
      · simp only [openPoolGo]
        rw [hE]
    · simp only [openPoolGo]
      rw [hE, hR, migrateDB_congr_onStart hasSchema schema h1.OnStartMigrate
        h2.OnStartMigrate hS db s]

/-- C10: leaving all three hooks nil makes every internal hook invocation a
no-op, so the whole background task — open loop, migration run and error
reporting — behaves exactly as with hooks that do nothing. -/
theorem hooks_nil_noop {D σ : Type} :
    ∀ (hasSchema : D → Bool) (schema : Schema D) (first : OpenStep D)
      (rest : List (WaitStep × OpenStep D)) (s : σ) (db : DB D),
      newPoolTask hasSchema schema nilHooks first rest s
        = newPoolTask hasSchema schema trivialHooks first rest s ∧
      migrateDB hasSchema schema (none : SignalFunc σ) db s
        = migrateDB hasSchema schema (some fun x => x) db s := by
  intro hasSchema schema first rest s db
  have hS : SignalFunc.call (nilHooks : Hooks σ).OnStartMigrate
      = SignalFunc.call (trivialHooks : Hooks σ).OnStartMigrate := by
    funext s0
    rfl
  have hR : SignalFunc.call (nilHooks : Hooks σ).OnReady
      = SignalFunc.call (trivialHooks : Hooks σ).OnReady := by
    funext s0
    rfl
  have hE : ReportFunc.call (nilHooks : Hooks σ).OnError
      = ReportFunc.call (trivialHooks : Hooks σ).OnError := by
    funext e0 s0
    rfl
  constructor
  · have hgo := openPoolGo_congr_hooks hasSchema schema nilHooks trivialHooks
      hS hR hE first rest s
    simp only [newPoolTask, openPool]
    rw [hgo, hE]
  · exact migrateDB_congr_onStart hasSchema schema none (some fun x => x)
      (by funext s0; rfl) db s

end SQLiteMigration
